import Mathlib

/-!
Verification development for the `shift_optimization` repository
(`src/solve_new.py`).

The Python program builds a CP-SAT model for hour-granular shift
scheduling.  This file shallowly embeds, in Lean, the parts of the
program that the checked claims are about:

* the availability expander `get_employee_availability_matrix`
  (lines 116-166): the per-slot marking rule and the night-shift
  details map (a Python dict whose writes are last-write-wins);
* the demand resolver `get_cleaning_tasks_for_day_facility`
  (lines 169-179);
* the difficulty score map (lines 250-275) and the scaled totals used
  by the fairness soft constraint (lines 877-912) — modelled over `ℚ`
  with Python's round-half-to-even (`pyRound`); the Python program uses
  IEEE doubles, which agree with `ℚ` on the parameter ranges exercised
  here;
* the live hard-constraint system of the model in `solve_schedule`:
  the y-variable layer ("one availability slot, at most one facility",
  lines 397-404), the x/y linking (lines 406-459, whose net effect is
  the biconditional `x[f,w,d,h] = OR of the covering y[slot,f]`, so the
  x assignment is a function `xVal` of the y assignment), the
  at-most-one-facility-per-hour fact forced by the reified `works_at`
  variables (lines 491-497), the weekly 40-hour cap (lines 469-478) and
  the rest-interval constraint (lines 480-532).  `SatCore` collects the
  conditions on the (x, y) assignment that any feasible solution of the
  built model satisfies; `softOk` collects the satisfiability side
  conditions of the auxiliary soft-penalty variables (the shortage
  variable's upper bound, line 803, and the scaled-difficulty totals'
  upper bound, line 879), so that `SatCore ∧ softOk` certifies that a
  concrete assignment extends to a full feasible solution of the model;
* the result extraction of `shortage_shifts_details`
  (lines 999-1038);
* the retry controller (lines 1070-1081), embedded over loosely typed
  argument slots (`PyDictVal`) because the claim under test is about
  Python positional-argument binding at the recursive call;
* the HTTP boundary `shift_optimazation` (lines 1084-1177), with the
  engine as a function parameter and the GCS upload elided (it is
  wrapped in a try/except in the source and cannot affect the HTTP
  status).

Conventions: hours are `Nat`, a planning day is its index `d` from the
planning start date, a calendar date is identified with its day index
(the Python code keys by "YYYY-MM-DD" strings, a bijective renaming),
day-of-week labels are `Nat` (the code compares label strings for
equality and nothing else), and `days_of_week_order` is a list of 7
labels indexed by `date.weekday()`.  Facility ids are `Nat`; employee
preference lists are stored already resolved to facility indices, as
the code does at lines 280-283 (ids unknown to the facility map are
dropped there, so every stored index is < the facility count;
`prefsValid` states this).  Python truthiness of the JSON dicts at the
HTTP boundary is modelled with `Option` (absent key ↦ `none`).
-/

namespace ShiftOpt

/-- An availability slot of an employee, as parsed from the input:
`day_of_week` label, `parse_time_to_int` of `start_time` and
`end_time`, and the optional `is_night_shift` flag (absent ↦ `false`). -/
structure Slot where
  dayOfWeek : Nat
  startTime : Nat
  endTime : Nat
  isNight : Bool
deriving DecidableEq, Repr

/-- An employee: availability slots and preferred facilities (already
resolved to facility indices; `[]` means no preference). -/
structure Employee where
  slots : List Slot
  preferred : List Nat
deriving DecidableEq, Repr

/-- The default employee used for out-of-range `List.getD` access; it
has no slots and no preferences, so it can never be assigned. -/
def defaultEmployee : Employee := ⟨[], []⟩

/-- A facility: its id and `cleaning_capacity_tasks_per_hour_per_employee`
(default 1 in the source; non-positive values are coerced to 1 at use
sites, lines 788-789 and 1003-1004). -/
structure Facility where
  fid : Nat
  capacity : Int
deriving DecidableEq, Repr

/-- One facility's cleaning-task table: day-of-week label ↦ (date ↦
task count), plus the optional `default_tasks_for_day_of_week` map. -/
structure FacilityCleaningTable where
  fid : Nat
  dayOfWeekTasks : List (Nat × List (Nat × Nat))
  defaultTasks : List (Nat × Nat)
deriving DecidableEq, Repr

/-- A solve instance: the settings fields used by the embedded code,
the facilities, employees and cleaning-task tables. -/
structure Inst where
  numDays : Nat
  startWeekday : Nat
  order : List Nat
  cleanStart : Nat
  cleanEnd : Nat
  baseScore : ℚ
  nightMult : ℚ
  weekendMult : ℚ
  nightStart : Nat
  nightEnd : Nat
  timeLimitSetting : Option Int
  facilities : List Facility
  employees : List Employee
  cleaning : List FacilityCleaningTable

def numFac (inst : Inst) : Nat := inst.facilities.length

def numEmp (inst : Inst) : Nat := inst.employees.length

def empSlots (inst : Inst) (e : Nat) : List Slot :=
  (inst.employees.getD e defaultEmployee).slots

def empPrefs (inst : Inst) (e : Nat) : List Nat :=
  (inst.employees.getD e defaultEmployee).preferred

/-- Day-of-week label of planning day `d`:
`days_of_week_order[(start_date + d).weekday()]`. -/
def dayLabel (inst : Inst) (d : Nat) : Nat :=
  inst.order.getD ((inst.startWeekday + d) % 7) 0

/-- Whether the availability expander marks hour `h` of planning day `d`
as available because of slot `s` (source lines 128-160).  The slot is
matched on every planning day whose weekday label equals
`s.dayOfWeek`; an `is_night_shift` slot with `end < start` marks
`[start, 24)` that day and, when the next day is still inside the
horizon, `[0, end)` on the next day; any other slot marks
`[start, end)`. -/
def slotMarksHour (inst : Inst) (s : Slot) (d h : Nat) : Bool :=
  (decide (d < inst.numDays) && (dayLabel inst d == s.dayOfWeek) &&
    (if s.isNight && decide (s.endTime < s.startTime) then
       decide (s.startTime ≤ h) && decide (h < 24)
     else
       decide (s.startTime ≤ h) && decide (h < s.endTime) && decide (h < 24)))
  ||
  (decide (1 ≤ d) && decide (d < inst.numDays) &&
    (dayLabel inst (d - 1) == s.dayOfWeek) &&
    s.isNight && decide (s.endTime < s.startTime) &&
    decide (h < s.endTime) && decide (h < 24))

/-- The availability bitmap: `availability_matrix[(e, d, h)]` holds iff
some slot of employee `e` marks (d, h). -/
def availAt (inst : Inst) (e d h : Nat) : Bool :=
  (empSlots inst e).any fun s => slotMarksHour inst s d h

/-- A night-shift-details entry (source lines 146-160).  The overnight
shape records the start hour on the start day and the end hour on the
next day; the same-day shape is written for `is_night_shift` slots that
do not wrap midnight. -/
inductive NightDetail where
  | overnight (startHour endNextDay : Nat)
  | sameDay (startHour endHour : Nat)
deriving DecidableEq, Repr

/-- The night-shift-details entry that slot `s` writes for key
`(e, d)` when `d` matches its weekday label, if any (source lines
134-160): an overnight slot (`is_night_shift` and `end < start`)
writes an overnight entry, but only when `d + 1` is still inside the
horizon (the write sits inside the `day_idx + 1 < num_total_days`
block); any other `is_night_shift` slot writes a same-day entry; an
unflagged slot writes nothing. -/
def writeDetail (inst : Inst) (d : Nat) (s : Slot) : Option NightDetail :=
  if dayLabel inst d == s.dayOfWeek then
    if s.isNight && decide (s.endTime < s.startTime) then
      if d + 1 < inst.numDays then some (.overnight s.startTime s.endTime)
      else none
    else if s.isNight then some (.sameDay s.startTime s.endTime)
    else none
  else none

/-- `night_shift_details_map[(e, d)]`: the slots are iterated in list
order and each write overwrites the previous one (Python dict
assignment), so the entry is the last write. -/
def nightDetail (inst : Inst) (e d : Nat) : Option NightDetail :=
  (empSlots inst e).foldl
    (fun acc s => (writeDetail inst d s).orElse fun _ => acc) none

/-- The claim-side predicate of C8, following the claim's words: the
pair (e, d) starts an overnight slot, an overnight slot being one whose
end hour is less than its start hour. -/
def startsOvernightSlot (inst : Inst) (e d : Nat) : Bool :=
  (empSlots inst e).any fun s =>
    (dayLabel inst d == s.dayOfWeek) && decide (s.endTime < s.startTime)

/-- The day-specific cleaning-task map consulted first by the demand
resolver: `cleaning_data[facility_id].get(day_of_week, {})`. -/
def daySpecificTasks (inst : Inst) (fid d : Nat) : List (Nat × Nat) :=
  let ft := ((inst.cleaning.find? fun t => t.fid == fid).getD ⟨fid, [], []⟩)
  (ft.dayOfWeekTasks.lookup (dayLabel inst d)).getD []

/-- The `default_tasks_for_day_of_week` fallback map of a facility. -/
def defaultDowTasks (inst : Inst) (fid : Nat) : List (Nat × Nat) :=
  ((inst.cleaning.find? fun t => t.fid == fid).getD ⟨fid, [], []⟩).defaultTasks

/-- The demand resolver (source lines 169-179): date-specific entry
first, then the day-of-week default, else 0.  It only reads its inputs
(the Python body is a chain of `dict.get` calls), so it is pure. -/
def get_cleaning_tasks_for_day_facility (inst : Inst) (fid d : Nat) : Nat :=
  match (daySpecificTasks inst fid d).lookup d with
  | some v => v
  | none =>
    match (defaultDowTasks inst fid).lookup (dayLabel inst d) with
    | some v => v
    | none => 0

/-- Whether hour `h` is a night hour for the difficulty scorer (source
lines 251-258): the range wraps midnight when its start is not below
its end. -/
def nightHour (inst : Inst) (h : Nat) : Bool :=
  if inst.nightStart < inst.nightEnd then
    decide (inst.nightStart ≤ h) && decide (h < inst.nightEnd)
  else
    decide (inst.nightStart ≤ h) || decide (h < inst.nightEnd)

/-- Whether planning day `d` falls on a weekend (source lines 264-267):
`date.weekday() ∈ {5, 6}`. -/
def isWeekend (inst : Inst) (d : Nat) : Bool :=
  ((inst.startWeekday + d) % 7 == 5) || ((inst.startWeekday + d) % 7 == 6)

/-- The difficulty score of a cell (source lines 260-275).  The map is
keyed by (facility, day, hour) but the value does not depend on the
facility. -/
def difficultyScore (inst : Inst) (d h : Nat) : ℚ :=
  inst.baseScore * (if nightHour inst h then inst.nightMult else 1) *
    (if isWeekend inst d then inst.weekendMult else 1)

/-- Python's `round` on a real value: round half to even (the source
scales difficulty scores with `int(round(score * SCALE_FACTOR))`). -/
def pyRound (q : ℚ) : Int :=
  let f := q.floor
  if q - f < 1 / 2 then f
  else if 1 / 2 < q - f then f + 1
  else if f % 2 = 0 then f else f + 1

/-- The declared upper bound of the per-employee scaled difficulty
total (source line 879):
`int(24 * 7 * max(weekend_multi, night_multi, 1) * SCALE_FACTOR * 2)`. -/
def fairBound (inst : Inst) : Int :=
  Rat.floor (24 * 7 * max inst.weekendMult (max inst.nightMult 1) * 1000 * 2)

/-- The facility set a decision variable may use for employee `e`
(source lines 294-301): every facility when the employee has no
preferences, else exactly the preferred ones. -/
def targetB (inst : Inst) (e f : Nat) : Bool :=
  if (empPrefs inst e).isEmpty then decide (f < numFac inst)
  else (empPrefs inst e).elem f

/-- Whether the decision variable `x[f, e, d, h]` exists (sparse
creation, source lines 293-301): the hour must be available and the
facility admissible. -/
def xExists (inst : Inst) (f e d h : Nat) : Bool :=
  availAt inst e d h && targetB inst e f

/-- Day-of-week label of the calendar day before planning day `d`
(`(slot_date - 1 day).weekday()`, source line 425; well defined also
at `d = 0`, where it is the day before the planning start). -/
def prevDayLabel (inst : Inst) (d : Nat) : Nat :=
  inst.order.getD ((inst.startWeekday + d + 6) % 7) 0

/-- Whether slot `s` covers hour `h` of planning day `d` in the x/y
linking pass (source lines 412-429).  Same-day check first; a night
slot additionally covers the early hours of the day after a matching
day. -/
def coversB (inst : Inst) (s : Slot) (d h : Nat) : Bool :=
  if dayLabel inst d == s.dayOfWeek then
    if s.isNight && decide (s.endTime < s.startTime) then
      decide (s.startTime ≤ h) && decide (h < 24)
    else
      decide (s.startTime ≤ h) && decide (h < s.endTime)
  else if s.isNight then
    (prevDayLabel inst d == s.dayOfWeek) &&
      decide (s.endTime < s.startTime) && decide (h < s.endTime)
  else false

/-- `all_availability_slots` (source lines 242-248): every slot of
every employee, tagged with its employee index; the global slot index
is the position in this list. -/
def allSlots (inst : Inst) : List (Nat × Slot) :=
  inst.employees.enum.flatMap fun p => p.2.slots.map fun s => (p.1, s)

def defaultSlot : Slot := ⟨0, 0, 0, false⟩

/-- The (employee index, slot) pair at global slot index `gi`. -/
def slotEntry (inst : Inst) (gi : Nat) : Nat × Slot :=
  (allSlots inst).getD gi (0, defaultSlot)

/-- The value of `x[f, e, d, h]` as a function of the y assignment.
The live x/y linking constraints (source lines 406-459) amount to the
biconditional `x_var = OR of the y[slot, f] over the slots of the same
employee that cover (d, h)` (with `x_var = 0` when no such y exists),
so in every feasible solution the x assignment is this function of the
y assignment.  A variable that does not exist is never 1. -/
def xVal (inst : Inst) (yv : Nat → Nat → Bool) (f e d h : Nat) : Bool :=
  xExists inst f e d h &&
    ((List.range (allSlots inst).length).any fun gi =>
      ((slotEntry inst gi).1 == e) && coversB inst (slotEntry inst gi).2 d h &&
        yv gi f)

/-- The number of facilities employee `e` is assigned to at (d, h):
`sum over f of x[f, e, d, h]`. -/
def facAssignCount (inst : Inst) (yv : Nat → Nat → Bool) (e d h : Nat) : Nat :=
  ((List.range (numFac inst)).filter fun f => xVal inst yv f e d h).length

/-- The number of facilities the y variables of global slot `gi` pick:
`sum over f of y[gi, f]` over the admissible facilities (the only f for
which the variable exists, source lines 305-311). -/
def slotFacCount (inst : Inst) (yv : Nat → Nat → Bool) (gi : Nat) : Nat :=
  ((List.range (numFac inst)).filter fun f =>
    targetB inst (slotEntry inst gi).1 f && yv gi f).length

/-- Hours worked by employee `e` on day `d`. -/
def dayHours (inst : Inst) (yv : Nat → Nat → Bool) (e d : Nat) : Nat :=
  ((List.range 24).map fun h => facAssignCount inst yv e d h).sum

/-- Hours worked in the 7-day window starting at day `ws` (source
lines 471-478, the window is clipped at the horizon end). -/
def weekSegmentHours (inst : Inst) (yv : Nat → Nat → Bool) (e ws : Nat) : Nat :=
  ((List.range (min 7 (inst.numDays - ws))).map fun i =>
    dayHours inst yv e (ws + i)).sum

/-- Whether employee `e` works at global hour `t` (day `t / 24`, hour
`t % 24`): the value forced on the reified `works_at` variables of the
rest-interval block (source lines 491-497). -/
def worksAt (inst : Inst) (yv : Nat → Nat → Bool) (e t : Nat) : Bool :=
  (List.range (numFac inst)).any fun f =>
    xVal inst yv f e (t / 24) (t % 24)

/-- The end-of-shift predicate at global hour `t` (source lines
499-515): works at `t` and not at `t + 1`; at the last hour of the
horizon, simply works at `t`. -/
def endShift (inst : Inst) (yv : Nat → Nat → Bool) (e t : Nat) : Bool :=
  worksAt inst yv e t &&
    (if t + 1 < inst.numDays * 24 then !worksAt inst yv e (t + 1) else true)

/-- The rest-interval condition after global hour `t` (source lines
517-532): if the shift ends at `t`, the hours `t + rest_offset` for
`rest_offset` in `range(1, MIN_REST_HOURS)` = 1..7 that lie inside the
horizon are not worked. -/
def restHoursClear (inst : Inst) (yv : Nat → Nat → Bool) (e t : Nat) : Bool :=
  !endShift inst yv e t ||
    ((List.range 8).all fun o =>
      if 1 ≤ o ∧ t + o < inst.numDays * 24 then !worksAt inst yv e (t + o)
      else true)

/-- The conditions a (x, y) assignment satisfies exactly when it is the
restriction of a feasible solution of the built CP-SAT model's hard
constraints (the x values being `xVal` of the y values):

1. at most one facility per employee-hour — forced by the reified
   `works_at` variables, whose two conditional sums make
   `sum over f of x[f,e,d,h]` either 0 or 1 (source lines 491-497);
2. each availability slot is used by at most one facility (source
   lines 397-404);
3. the weekly 40-hour cap on every aligned 7-day window (source lines
   469-478);
4. the rest interval: after an end of shift at global hour `t`, the
   hours `t + 1 … t + 7` inside the horizon are not worked (source
   lines 517-532; `rest_offset` ranges over `range(1, 8)`).

`works_on_day` (lines 461-467) is reified in both directions, hence
determined by the x values, and adds no condition. -/
def SatCore (inst : Inst) (yv : Nat → Nat → Bool) : Prop :=
  (∀ e < numEmp inst, ∀ d < inst.numDays, ∀ h < 24,
      facAssignCount inst yv e d h ≤ 1) ∧
  (∀ gi < (allSlots inst).length, slotFacCount inst yv gi ≤ 1) ∧
  (∀ e < numEmp inst, ∀ ws < inst.numDays, ws % 7 = 0 →
      weekSegmentHours inst yv e ws ≤ 40) ∧
  (∀ e < numEmp inst, ∀ t < inst.numDays * 24,
      restHoursClear inst yv e t = true)

/-- The capacity actually used in the staffing formulas: non-positive
values are coerced to 1 (source lines 788-789 and 1003-1004). -/
def effCapacity (inst : Inst) (f : Nat) : Int :=
  let c := (inst.facilities.getD f ⟨0, 1⟩).capacity
  if c ≤ 0 then 1 else c

/-- Ceiling division on naturals, for `math.ceil(tasks / (capacity *
duration))` with a positive divisor. -/
def ceilDivNat (a b : Nat) : Nat := (a + b - 1) / b

/-- `required_staff_target` for a cell (source lines 795-799 and
1011-1016): baseline 1; inside the cleaning window, when the window
has positive width and the day's tasks are positive,
`max(1, ceil(tasks / (capacity * cleaning_hours_duration)))`. -/
def requiredStaff (inst : Inst) (f d h : Nat) : Nat :=
  let tasks := get_cleaning_tasks_for_day_facility inst
    (inst.facilities.getD f ⟨0, 1⟩).fid d
  let dur : Int := (inst.cleanEnd : Int) - (inst.cleanStart : Int)
  if inst.cleanStart ≤ h ∧ h < inst.cleanEnd then
    if 0 < dur ∧ 0 < tasks then
      max 1 (ceilDivNat tasks ((effCapacity inst f * dur).toNat))
    else 1
  else 1

/-- The number of employees assigned to facility `f` at (d, h) in the
extraction pass (source lines 1018-1022): existing variables valued 1. -/
def staffCount (inst : Inst) (yv : Nat → Nat → Bool) (f d h : Nat) : Nat :=
  ((List.range (numEmp inst)).filter fun e => xVal inst yv f e d h).length

/-- The number of cells assigned to employee `e`, as an integer (used
to evaluate `scaledDifficultyTotal` when all difficulty multipliers
are neutral). -/
def assignedCells (inst : Inst) (yv : Nat → Nat → Bool) (e : Nat) : Int :=
  ((List.range (numFac inst)).map fun f =>
    ((List.range inst.numDays).map fun d =>
      ((List.range 24).map fun h =>
        if xVal inst yv f e d h then (1 : Int) else 0).sum).sum).sum

/-- Per-employee total of `int(round(difficulty * 1000))` over the
assigned cells (source lines 884-892). -/
def scaledDifficultyTotal (inst : Inst) (yv : Nat → Nat → Bool) (e : Nat) :
    Int :=
  ((List.range (numFac inst)).map fun f =>
    ((List.range inst.numDays).map fun d =>
      ((List.range 24).map fun h =>
        if xVal inst yv f e d h then pyRound (difficultyScore inst d h * 1000)
        else 0).sum).sum).sum

/-- Satisfiability side conditions of the auxiliary soft-penalty
variables, so that a y assignment with `SatCore` extends to a full
feasible solution of the model:

* the shortage variable of every cell has upper bound
  `max(1, num_employees)` (source line 803) and must reach at least
  `required - assigned` (line 806);
* every employee's scaled difficulty total must fit the declared bound
  (source lines 879-894).

The remaining soft-constraint variables (daily/weekly/consecutive
excess, max/min/spread) always admit values for any x assignment. -/
def softOk (inst : Inst) (yv : Nat → Nat → Bool) : Prop :=
  (∀ f < numFac inst, ∀ d < inst.numDays, ∀ h < 24,
      (requiredStaff inst f d h : Int) - (staffCount inst yv f d h : Int) ≤
        max 1 (numEmp inst : Int)) ∧
  (∀ e < numEmp inst, scaledDifficultyTotal inst yv e ≤ fairBound inst)

/-- The well-formedness fact the source establishes at lines 280-283:
every stored preferred-facility index is a valid facility index. -/
def prefsValid (inst : Inst) : Prop :=
  ∀ e < numEmp inst, ∀ p ∈ empPrefs inst e, p < numFac inst

instance (inst : Inst) (yv : Nat → Nat → Bool) :
    Decidable (SatCore inst yv) := by
  unfold SatCore; infer_instance

instance (inst : Inst) (yv : Nat → Nat → Bool) :
    Decidable (softOk inst yv) := by
  unfold softOk; infer_instance

instance (inst : Inst) : Decidable (prefsValid inst) := by
  unfold prefsValid; infer_instance

/-- One record of `shortage_shifts_details` (source lines 1028-1036);
facility and date are stored here as indices (the code stores the
corresponding id and date strings, a bijective renaming). -/
structure ShortEntry where
  facIdx : Nat
  day : Nat
  hour : Nat
  shortage : Nat
  required : Nat
  assigned : Nat
deriving DecidableEq, Repr

/-- The entry the extraction pass emits for one cell, if any (source
lines 1024-1036): present exactly when `required - assigned > 0`. -/
def entryAt (inst : Inst) (yv : Nat → Nat → Bool) (f d h : Nat) :
    Option ShortEntry :=
  let req := requiredStaff inst f d h
  let asg := staffCount inst yv f d h
  if asg < req then some ⟨f, d, h, req - asg, req, asg⟩ else none

/-- `shortage_shifts_details` (source lines 999-1038): cells visited in
(facility, day, hour) order. -/
def shortage_shifts_details (inst : Inst) (yv : Nat → Nat → Bool) :
    List ShortEntry :=
  (List.range (numFac inst)).flatMap fun f =>
    (List.range inst.numDays).flatMap fun d =>
      (List.range 24).filterMap fun h => entryAt inst yv f d h

/-- The solver wall-clock budget actually installed (source line 931):
`solver.parameters.max_time_in_seconds = settings.get('time_limit_sec', 60)`.
The `time_limit_sec` argument of `solve_schedule` is not consulted; it
only appears in a log message (line 937). -/
def cp_max_time_in_seconds (inst : Inst) (time_limit_sec : Int) : Int :=
  let _ := time_limit_sec
  inst.timeLimitSetting.getD 60

end ShiftOpt

namespace ShiftOpt

/-! ### The retry controller, over loosely typed argument slots

`solve_schedule(full_result_ref, schedule_input_data,
cleaning_tasks_data, time_limit_sec, retry_attempt=0,
penalty_multipliers=None)` retries recursively on INFEASIBLE (source
lines 1070-1081) with the call

`solve_schedule(schedule_input_data, cleaning_tasks_data,
retry_attempt + 1, new_penalty_multipliers)`

whose four positional arguments bind, in order, to `full_result_ref`,
`schedule_input_data`, `cleaning_tasks_data` and `time_limit_sec`,
while `retry_attempt` and `penalty_multipliers` take their defaults.
To express that binding we give the four dict-like parameters one
union type `PyDictVal`.  Looking up `'settings'` succeeds only on a
schedule-input payload carrying the key; on anything else it raises
`KeyError`, which propagates (there is no handler around the body). -/

/-- The per-category soft-penalty multiplier vector (source lines
207-210). -/
structure PenaltyMults where
  consecutiveDays : ℚ
  weeklyDays : ℚ
  dailyHours : ℚ
  staffShortage : ℚ
deriving DecidableEq, Repr

/-- A loosely typed runtime value occupying one of the dict-like
parameter slots of `solve_schedule`. -/
inductive PyDictVal where
  | resRef
  | schedInput (hasSettings : Bool)
  | cleanInput
  | intVal (n : Nat)
  | multsVal (m : PenaltyMults)
deriving DecidableEq, Repr

/-- The default multiplier vector installed when the parameter is
`None` (source lines 207-210). -/
def defaultMults : PenaltyMults := ⟨1, 1, 1, 1⟩

/-- Scaling of every category by `PENALTY_REDUCTION_FACTOR = 0.2`
(source line 1076). -/
def reduceMults (m : PenaltyMults) : PenaltyMults :=
  ⟨m.consecutiveDays * (1 / 5), m.weeklyDays * (1 / 5),
   m.dailyHours * (1 / 5), m.staffShortage * (1 / 5)⟩

inductive CpStatus where
  | optimal
  | feasible
  | infeasible
  | modelInvalid
  | unknown
deriving DecidableEq, Repr

inductive PyError where
  | keyError
  | recursionDepth
deriving DecidableEq, Repr

/-- The observable outcome of one `solve_schedule` call that returns
normally: the solver status plus the `retry_attempt` and effective
multipliers recorded in `applied_constraints_settings`. -/
structure SolveResultRec where
  status : CpStatus
  retryAttempt : Nat
  multipliers : PenaltyMults
deriving DecidableEq, Repr

/-- The retry skeleton of `solve_schedule` (source lines 200-212 and
938-1081).  `outcome` abstracts the CP solve of the model built from
the fixed inputs and the current multipliers.  The first explicit
argument after the fuel is `full_result_ref`, then
`schedule_input_data`, `cleaning_tasks_data`, `time_limit_sec`, then
`retry_attempt` and `penalty_multipliers`.  The recursive call mirrors
the positional binding of source line 1077 exactly. -/
def solve_schedule (outcome : PenaltyMults → CpStatus) :
    Nat → PyDictVal → PyDictVal → PyDictVal → PyDictVal → Nat →
      Option PenaltyMults → Except PyError SolveResultRec
  | 0, _, _, _, _, _, _ => .error .recursionDepth
  | fuel + 1, _ref, sched, clean, _tl, retry, pm =>
    let m := pm.getD defaultMults
    match sched with
    | .schedInput true =>
      match outcome m with
      | .optimal => .ok ⟨.optimal, retry, m⟩
      | .feasible => .ok ⟨.feasible, retry, m⟩
      | .infeasible =>
        if retry < 3 then
          solve_schedule outcome fuel sched clean (.intVal (retry + 1))
            (.multsVal (reduceMults m)) 0 none
        else .ok ⟨.infeasible, retry, m⟩
      | .modelInvalid => .ok ⟨.modelInvalid, retry, m⟩
      | .unknown => .ok ⟨.unknown, retry, m⟩
    | _ => .error .keyError

/-! ### The HTTP boundary -/

/-- The `time_limit_sec` query parameter as received: absent, not an
integer literal, or an integer value. -/
inductive TimeLimitParam where
  | missing
  | notAnInt
  | intStr (n : Int)
deriving DecidableEq, Repr

def DEFAULT_TIME_LIMIT_SEC : Int := 3600

/-- Resolution of the query parameter at the boundary (source lines
1120-1126): absent ↦ default; non-integer ↦ default; non-positive ↦
default; else the value. -/
def resolveTimeLimit : TimeLimitParam → Int
  | .missing => DEFAULT_TIME_LIMIT_SEC
  | .notAnInt => DEFAULT_TIME_LIMIT_SEC
  | .intStr n => if n ≤ 0 then DEFAULT_TIME_LIMIT_SEC else n

/-- Presence of the three keys checked at source line 1130 inside
`schedule_input`. -/
structure ScheduleInputShape where
  hasSettings : Bool
  hasFacilities : Bool
  hasEmployees : Bool
deriving DecidableEq, Repr

/-- The parsed request body: the `schedule_input` and
`cleaning_tasks_input` members (absent ↦ `none` / `false`). -/
structure RequestBody where
  scheduleInput : Option ScheduleInputShape
  cleaningTasksPresent : Bool
deriving DecidableEq, Repr

/-- An HTTP request as the handler observes it: `request.get_json
(silent=True)` (falsy ↦ `none`) and the `time_limit_sec` query
parameter. -/
structure HttpReq where
  bodyJson : Option RequestBody
  timeLimitParam : TimeLimitParam
deriving DecidableEq, Repr

/-- Engine-reported schedule status as serialized into the response. -/
inductive EngineStatus where
  | optimalS
  | feasibleS
  | infeasibleS
  | modelInvalidS
  | unknownS
  | noDataError
deriving DecidableEq, Repr

/-- The observable HTTP outcome: status code, whether `solve_schedule`
was invoked, and the `schedule_result` status of the payload (if one
was produced). -/
structure HttpResponse where
  statusCode : Nat
  engineInvoked : Bool
  scheduleStatus : Option EngineStatus
deriving DecidableEq, Repr

/-- The HTTP boundary `shift_optimazation` (source lines 1084-1177),
with the engine as a parameter (an `.error` models an exception
propagating out of `solve_schedule`; the handler has no try/except
around that call).  Empty or malformed body ↦ 400; missing (or falsy)
`schedule_input` or `cleaning_tasks_input` ↦ 400, engine not invoked;
missing `settings`/`facilities`/`employees` ↦ the handler stores a
`NO_DATA_ERROR` schedule result without invoking the engine and still
returns 200; otherwise the engine runs with the resolved time limit
and the handler returns 200 whatever status it reports.  The GCS
upload (lines 1147-1173) is wrapped in a try/except in the source and
cannot change the status code, so it is elided. -/
def shift_optimazation (engine : Int → Except PyError EngineStatus)
    (req : HttpReq) : Except PyError HttpResponse :=
  match req.bodyJson with
  | none => .ok ⟨400, false, none⟩
  | some body =>
    match body.scheduleInput, body.cleaningTasksPresent with
    | none, _ => .ok ⟨400, false, none⟩
    | some _, false => .ok ⟨400, false, none⟩
    | some si, true =>
      let tl := resolveTimeLimit req.timeLimitParam
      if si.hasSettings && si.hasFacilities && si.hasEmployees then
        match engine tl with
        | .ok st => .ok ⟨200, true, some st⟩
        | .error e => .error e
      else .ok ⟨200, false, some .noDataError⟩

/-! ### Concrete instances

All use the default settings of the source: `days_of_week_order` is the
seven labels 0..6 (standing for Mon..Sun), the planning start date is a
Monday (weekday 0), the cleaning window is [10, 15), the difficulty
multipliers are the neutral defaults, and the night range for
difficulty is the default (22, 5). -/

/-- A base instance with no facilities and no employees. -/
def baseInst : Inst :=
  { numDays := 1
    startWeekday := 0
    order := [0, 1, 2, 3, 4, 5, 6]
    cleanStart := 10
    cleanEnd := 15
    baseScore := 1
    nightMult := 1
    weekendMult := 1
    nightStart := 22
    nightEnd := 5
    timeLimitSetting := none
    facilities := []
    employees := []
    cleaning := [] }

/-- One facility, one employee with two Monday slots 08:00-12:00 and
19:00-21:00, a one-day horizon. -/
def exTwoBlocks : Inst :=
  { baseInst with
    facilities := [⟨0, 1⟩]
    employees := [⟨[⟨0, 8, 12, false⟩, ⟨0, 19, 21, false⟩], []⟩] }

/-- The y assignment giving both slots of `exTwoBlocks` to facility 0. -/
def yvTwoBlocks : Nat → Nat → Bool := fun gi f =>
  (gi == 0 || gi == 1) && f == 0

/-- One facility, two-day horizon, one employee with an overnight slot
Mon 22:00-06:00 (`is_night_shift`) and an overlapping plain slot Mon
22:00-24:00. -/
def exOverlap : Inst :=
  { baseInst with
    numDays := 2
    facilities := [⟨0, 1⟩]
    employees := [⟨[⟨0, 22, 6, true⟩, ⟨0, 22, 24, false⟩], []⟩] }

/-- The y assignment of `exOverlap` that uses only the plain evening
slot (global index 1) at facility 0. -/
def yvOverlap : Nat → Nat → Bool := fun gi f => gi == 1 && f == 0

/-- One facility, two-day horizon, one employee whose single slot is
the overnight slot Mon 22:00-06:00 (`is_night_shift`). -/
def exNight : Inst :=
  { baseInst with
    numDays := 2
    facilities := [⟨0, 1⟩]
    employees := [⟨[⟨0, 22, 6, true⟩], []⟩] }

/-- The y assignment of `exNight` giving the overnight slot to
facility 0. -/
def yvNight : Nat → Nat → Bool := fun gi f => gi == 0 && f == 0

/-- The all-zero y assignment (no slot used anywhere). -/
def yvNone : Nat → Nat → Bool := fun _ _ => false

/-- One-day horizon, one employee whose single slot Mon 20:00-23:00
carries the `is_night_shift` flag but does not wrap midnight. -/
def exEveningFlag : Inst :=
  { baseInst with
    facilities := [⟨0, 1⟩]
    employees := [⟨[⟨0, 20, 23, true⟩], []⟩] }

/-- A cleaning table for facility id 7 with a date-specific entry for
day 0 (5 tasks) and a day-of-week default (9 tasks). -/
def exCleanDate : Inst :=
  { baseInst with
    facilities := [⟨7, 1⟩]
    cleaning := [⟨7, [(0, [(0, 5)])], [(0, 9)]⟩] }

/-- A cleaning table for facility id 7 with no date-specific entry for
day 0 but a day-of-week default of 3 tasks. -/
def exCleanDefault : Inst :=
  { baseInst with
    facilities := [⟨7, 1⟩]
    cleaning := [⟨7, [(0, [(3, 5)])], [(0, 3)]⟩] }

/-- A cleaning table for facility id 7 with neither a date-specific
entry nor a day-of-week default for day 0. -/
def exCleanEmpty : Inst :=
  { baseInst with
    facilities := [⟨7, 1⟩]
    cleaning := [⟨7, [(1, [(1, 5)])], [(1, 3)]⟩] }

/-- The no-overlap proviso of the amended overnight-continuity claim:
every slot of employee `e` that covers the first hour `(d, sh)` of the
recorded span also covers the whole span (hours `sh..23` of day `d`
and hours `0..eh-1` of day `d+1`). -/
def coversWholeSpan (inst : Inst) (e d sh eh : Nat) : Bool :=
  (List.range (allSlots inst).length).all fun gi =>
    !((slotEntry inst gi).1 == e &&
        coversB inst (slotEntry inst gi).2 d sh) ||
      (((List.range 24).all fun h =>
          if sh ≤ h then coversB inst (slotEntry inst gi).2 d h else true) &&
       ((List.range 24).all fun h =>
          if h < eh then coversB inst (slotEntry inst gi).2 (d + 1) h
          else true))

/-! ## Helper lemmas -/

/-- Python round of the rational 1000 is 1000. -/
theorem pyRound_1000 : pyRound 1000 = 1000 := by
  have h : Rat.floor (1000 : ℚ) = 1000 := by decide
  simp only [pyRound, h]
  norm_num

/-- With neutral multipliers every cell has difficulty score 1. -/
theorem difficultyScore_neutral (inst : Inst) (d h : Nat)
    (hb : inst.baseScore = 1) (hn : inst.nightMult = 1)
    (hw : inst.weekendMult = 1) : difficultyScore inst d h = 1 := by
  simp [difficultyScore, hb, hn, hw]

/-- With neutral multipliers the scaled difficulty total is 1000 per
assigned cell. -/
theorem scaledDifficultyTotal_neutral (inst : Inst) (yv : Nat → Nat → Bool)
    (e : Nat) (hb : inst.baseScore = 1) (hn : inst.nightMult = 1)
    (hw : inst.weekendMult = 1) :
    scaledDifficultyTotal inst yv e = 1000 * assignedCells inst yv e := by
  have hcell : ∀ f d h,
      (if xVal inst yv f e d h then pyRound (difficultyScore inst d h * 1000)
       else 0) = 1000 * (if xVal inst yv f e d h then (1 : Int) else 0) := by
    intro f d h
    rw [difficultyScore_neutral inst d h hb hn hw, one_mul, pyRound_1000]
    by_cases hxv : xVal inst yv f e d h <;> simp [hxv]
  unfold scaledDifficultyTotal assignedCells
  simp only [hcell, List.sum_map_mul_left]

/-- With neutral multipliers the declared fairness bound is 336000. -/
theorem fairBound_neutral (inst : Inst) (hn : inst.nightMult = 1)
    (hw : inst.weekendMult = 1) : fairBound inst = 336000 := by
  have h : Rat.floor (336000 : ℚ) = 336000 := by decide
  simp only [fairBound, hn, hw]
  norm_num [h]

/-- Discharges `softOk` for instances with neutral difficulty
multipliers from two kernel-decidable conditions. -/
theorem softOk_neutral (inst : Inst) (yv : Nat → Nat → Bool)
    (hb : inst.baseScore = 1) (hn : inst.nightMult = 1)
    (hw : inst.weekendMult = 1)
    (h1 : ∀ f < numFac inst, ∀ d < inst.numDays, ∀ h < 24,
        (requiredStaff inst f d h : Int) - (staffCount inst yv f d h : Int) ≤
          max 1 (numEmp inst : Int))
    (h2 : ∀ e < numEmp inst, assignedCells inst yv e ≤ 336) :
    softOk inst yv := by
  refine ⟨h1, fun e he => ?_⟩
  rw [scaledDifficultyTotal_neutral inst yv e hb hn hw,
    fairBound_neutral inst hn hw]
  have := h2 e he
  linarith


theorem foldl_write_isSome (inst : Inst) (d : Nat) (l : List Slot)
    (acc : Option NightDetail) :
    ((l.foldl (fun a s => (writeDetail inst d s).orElse fun _ => a) acc).isSome
        = true) ↔
      acc.isSome = true ∨ ∃ s ∈ l, (writeDetail inst d s).isSome = true := by
  induction l generalizing acc with
  | nil => simp
  | cons s t ih =>
    rw [List.foldl_cons, ih]
    cases hw : writeDetail inst d s <;> simp [hw]

theorem foldl_write_eq_some (inst : Inst) (d : Nat) (l : List Slot)
    (acc : Option NightDetail) (v : NightDetail)
    (h : l.foldl (fun a s => (writeDetail inst d s).orElse fun _ => a) acc
        = some v) :
    (∃ s ∈ l, writeDetail inst d s = some v) ∨ acc = some v := by
  induction l generalizing acc with
  | nil => exact Or.inr h
  | cons s t ih =>
    rw [List.foldl_cons] at h
    rcases ih _ h with h' | h'
    · obtain ⟨s', hs', hw⟩ := h'
      exact Or.inl ⟨s', List.mem_cons_of_mem _ hs', hw⟩
    · cases hw : writeDetail inst d s with
      | none => rw [hw] at h'; exact Or.inr h'
      | some w =>
        rw [hw] at h'
        simp only [Option.orElse] at h'
        exact Or.inl ⟨s, List.mem_cons_self .., by rw [hw, h']⟩

theorem nightDetail_eq_some (inst : Inst) (e d : Nat) (v : NightDetail)
    (h : nightDetail inst e d = some v) :
    ∃ s ∈ empSlots inst e, writeDetail inst d s = some v := by
  unfold nightDetail at h
  rcases foldl_write_eq_some inst d _ none v h with h' | h'
  · exact h'
  · cases h'

theorem nightDetail_isSome_iff (inst : Inst) (e d : Nat) :
    (nightDetail inst e d).isSome = true ↔
      ∃ s ∈ empSlots inst e, (writeDetail inst d s).isSome = true := by
  unfold nightDetail
  rw [foldl_write_isSome]
  simp

theorem writeDetail_isSome_iff (inst : Inst) (d : Nat) (s : Slot) :
    (writeDetail inst d s).isSome = true ↔
      dayLabel inst d = s.dayOfWeek ∧ s.isNight = true ∧
        (s.endTime < s.startTime → d + 1 < inst.numDays) := by
  unfold writeDetail
  by_cases h1 : dayLabel inst d = s.dayOfWeek
  · by_cases h2 : s.isNight = true
    · by_cases h3 : s.endTime < s.startTime
      · by_cases h4 : d + 1 < inst.numDays <;> simp [h1, h2, h3, h4]
      · simp [h1, h2, h3]
    · simp [h1, h2, Bool.not_eq_true _ ▸ h2]
  · simp [h1]

theorem writeDetail_overnight (inst : Inst) (d : Nat) (s : Slot)
    (sh eh : Nat) (h : writeDetail inst d s = some (.overnight sh eh)) :
    dayLabel inst d = s.dayOfWeek ∧ s.isNight = true ∧
      s.endTime < s.startTime ∧ d + 1 < inst.numDays ∧
      s.startTime = sh ∧ s.endTime = eh := by
  unfold writeDetail at h
  by_cases h1 : dayLabel inst d = s.dayOfWeek
  · by_cases h2 : s.isNight = true
    · by_cases h3 : s.endTime < s.startTime
      · by_cases h4 : d + 1 < inst.numDays
        · simp [h1, h2, h3, h4] at h
          exact ⟨h1, h2, h3, h4, h.1, h.2⟩
        · simp_all
      · simp_all
    · simp_all
  · simp_all


theorem slotMarksHour_bounds (inst : Inst) (s : Slot) (d h : Nat)
    (hm : slotMarksHour inst s d h = true) :
    d < inst.numDays ∧ h < 24 := by
  unfold slotMarksHour at hm
  simp only [Bool.or_eq_true, Bool.and_eq_true, decide_eq_true_eq] at hm
  rcases hm with ⟨⟨hd, _⟩, hif⟩ | ⟨⟨⟨⟨⟨⟨_, hd⟩, _⟩, _⟩, _⟩, _⟩, h24⟩
  · refine ⟨hd, ?_⟩
    split at hif <;> simp only [Bool.and_eq_true, decide_eq_true_eq] at hif
    · exact hif.2
    · exact hif.2
  · exact ⟨hd, h24⟩

theorem availAt_bounds (inst : Inst) (e d h : Nat)
    (ha : availAt inst e d h = true) :
    e < numEmp inst ∧ d < inst.numDays ∧ h < 24 := by
  unfold availAt at ha
  rw [List.any_eq_true] at ha
  obtain ⟨s, hs, hm⟩ := ha
  refine ⟨?_, (slotMarksHour_bounds inst s d h hm).1,
    (slotMarksHour_bounds inst s d h hm).2⟩
  by_contra he
  push_neg at he
  have hempty : empSlots inst e = [] := by
    unfold empSlots
    rw [List.getD_eq_default _ _ he]
    rfl
  rw [hempty] at hs
  cases hs

theorem xVal_parts (inst : Inst) (yv : Nat → Nat → Bool) (f e d h : Nat)
    (hx : xVal inst yv f e d h = true) :
    availAt inst e d h = true ∧ targetB inst e f = true ∧
      ∃ gi < (allSlots inst).length, (slotEntry inst gi).1 = e ∧
        coversB inst (slotEntry inst gi).2 d h = true ∧ yv gi f = true := by
  unfold xVal xExists at hx
  simp only [Bool.and_eq_true, List.any_eq_true, List.mem_range,
    beq_iff_eq] at hx
  obtain ⟨⟨ha, ht⟩, gi, hgi, hcy⟩ := hx
  exact ⟨ha, ht, gi, hgi, hcy.1.1, hcy.1.2, hcy.2⟩

theorem xVal_intro (inst : Inst) (yv : Nat → Nat → Bool) (f e d h : Nat)
    (ha : availAt inst e d h = true) (ht : targetB inst e f = true)
    (gi : Nat) (hgi : gi < (allSlots inst).length)
    (he : (slotEntry inst gi).1 = e)
    (hc : coversB inst (slotEntry inst gi).2 d h = true)
    (hy : yv gi f = true) : xVal inst yv f e d h = true := by
  unfold xVal xExists
  simp only [Bool.and_eq_true, List.any_eq_true, List.mem_range, beq_iff_eq]
  exact ⟨⟨ha, ht⟩, gi, hgi, ⟨⟨he, hc⟩, hy⟩⟩

theorem targetB_lt (inst : Inst) (e f : Nat) (hwf : prefsValid inst)
    (he : e < numEmp inst) (ht : targetB inst e f = true) :
    f < numFac inst := by
  unfold targetB at ht
  split at ht
  · exact of_decide_eq_true ht
  · exact hwf e he f (List.mem_of_elem_eq_true ht)

theorem length_filter_le_one_unique {p : Nat → Bool} {n : Nat}
    (hlen : ((List.range n).filter p).length ≤ 1) {f g : Nat}
    (hf : f < n) (hg : g < n) (hpf : p f = true) (hpg : p g = true) :
    f = g := by
  by_contra hne
  have hmf : f ∈ (List.range n).filter p :=
    List.mem_filter.2 ⟨List.mem_range.2 hf, hpf⟩
  have hmg : g ∈ (List.range n).filter p :=
    List.mem_filter.2 ⟨List.mem_range.2 hg, hpg⟩
  have hnd : ((List.range n).filter p).Nodup := (List.nodup_range n).filter p
  have h2 : 1 < ((List.range n).filter p).length := by
    rw [← List.toFinset_card_of_nodup hnd]
    exact Finset.one_lt_card.2
      ⟨f, List.mem_toFinset.2 hmf, g, List.mem_toFinset.2 hmg, hne⟩
  omega

theorem xVal_facility_unique (inst : Inst) (yv : Nat → Nat → Bool)
    (hwf : prefsValid inst) (hsat : SatCore inst yv) (e d h f g : Nat)
    (hf : xVal inst yv f e d h = true) (hg : xVal inst yv g e d h = true) :
    f = g := by
  obtain ⟨haf, htf, _⟩ := xVal_parts inst yv f e d h hf
  obtain ⟨_, htg, _⟩ := xVal_parts inst yv g e d h hg
  obtain ⟨he, hd, hh⟩ := availAt_bounds inst e d h haf
  have hcount := hsat.1 e he d hd h hh
  exact length_filter_le_one_unique hcount
    (targetB_lt inst e f hwf he htf) (targetB_lt inst e g hwf he htg) hf hg

theorem coversWholeSpan_parts (inst : Inst) (e d sh eh : Nat)
    (hc : coversWholeSpan inst e d sh eh = true) (gi : Nat)
    (hgi : gi < (allSlots inst).length) (hfst : (slotEntry inst gi).1 = e)
    (hcov : coversB inst (slotEntry inst gi).2 d sh = true) :
    (∀ h < 24, sh ≤ h → coversB inst (slotEntry inst gi).2 d h = true) ∧
    (∀ h < eh, h < 24 →
      coversB inst (slotEntry inst gi).2 (d + 1) h = true) := by
  unfold coversWholeSpan at hc
  rw [List.all_eq_true] at hc
  have hgi' := hc gi (List.mem_range.2 hgi)
  simp only [Bool.or_eq_true, Bool.not_eq_true', Bool.and_eq_true,
    beq_iff_eq] at hgi'
  rcases hgi' with hno | ⟨h1, h2⟩
  · exfalso
    rw [Bool.and_eq_false_iff] at hno
    rcases hno with hno | hno
    · simp [hfst] at hno
    · rw [hcov] at hno; cases hno
  · constructor
    · intro h h24 hsh
      have := List.all_eq_true.mp h1 h (List.mem_range.2 h24)
      rwa [if_pos hsh] at this
    · intro h heh h24
      have := List.all_eq_true.mp h2 h (List.mem_range.2 h24)
      rwa [if_pos heh] at this

theorem nightSlot_marks_today (inst : Inst) (s : Slot) (d h : Nat)
    (hdN : d + 1 < inst.numDays) (hlab : dayLabel inst d = s.dayOfWeek)
    (hn : s.isNight = true) (hlt : s.endTime < s.startTime)
    (hsh : s.startTime ≤ h) (h24 : h < 24) :
    slotMarksHour inst s d h = true := by
  unfold slotMarksHour
  simp only [Bool.or_eq_true, Bool.and_eq_true, decide_eq_true_eq, beq_iff_eq]
  left
  refine ⟨⟨by omega, hlab⟩, ?_⟩
  rw [if_pos (by simp [hn, hlt])]
  simp only [Bool.and_eq_true, decide_eq_true_eq]
  exact ⟨hsh, h24⟩

theorem nightSlot_marks_nextday (inst : Inst) (s : Slot) (d h : Nat)
    (hdN : d + 1 < inst.numDays) (hlab : dayLabel inst d = s.dayOfWeek)
    (hn : s.isNight = true) (hlt : s.endTime < s.startTime)
    (heh : h < s.endTime) (h24 : h < 24) :
    slotMarksHour inst s (d + 1) h = true := by
  unfold slotMarksHour
  simp only [Bool.or_eq_true, Bool.and_eq_true, decide_eq_true_eq, beq_iff_eq]
  right
  simp only [Nat.add_sub_cancel]
  exact ⟨⟨⟨⟨⟨⟨by omega, hdN⟩, hlab⟩, hn⟩, hlt⟩, heh⟩, h24⟩

theorem availAt_of_slot (inst : Inst) (e d h : Nat) (s : Slot)
    (hs : s ∈ empSlots inst e) (hm : slotMarksHour inst s d h = true) :
    availAt inst e d h = true := by
  unfold availAt
  rw [List.any_eq_true]
  exact ⟨s, hs, hm⟩

/-- C2 (amended): overnight continuity for a recorded overnight slot,
under the proviso that every slot of the employee covering the span's
first hour covers the whole span. -/
theorem overnight_slot_continuity (inst : Inst) (yv : Nat → Nat → Bool)
    (e d sh eh f : Nat) (hwf : prefsValid inst) (hsat : SatCore inst yv)
    (hdet : nightDetail inst e d = some (.overnight sh eh))
    (hcov : coversWholeSpan inst e d sh eh = true)
    (hfirst : xVal inst yv f e d sh = true) :
    (∀ h < 24, sh ≤ h → xVal inst yv f e d h = true) ∧
    (∀ h < eh, h < 24 → xVal inst yv f e (d + 1) h = true) ∧
    (∀ g, g ≠ f →
      (∀ h < 24, sh ≤ h → xVal inst yv g e d h = false) ∧
      (∀ h < eh, h < 24 → xVal inst yv g e (d + 1) h = false)) := by
  obtain ⟨s0, hs0mem, hs0w⟩ := nightDetail_eq_some inst e d _ hdet
  obtain ⟨hlab, hn, hlt, hdN, hsh0, heh0⟩ :=
    writeDetail_overnight inst d s0 sh eh hs0w
  obtain ⟨ha0, ht, gi, hgi, hgie, hgic, hgiy⟩ :=
    xVal_parts inst yv f e d sh hfirst
  obtain ⟨hcday, hcnext⟩ :=
    coversWholeSpan_parts inst e d sh eh hcov gi hgi hgie hgic
  have htoday : ∀ h < 24, sh ≤ h → xVal inst yv f e d h = true := by
    intro h h24 hshh
    exact xVal_intro inst yv f e d h
      (availAt_of_slot inst e d h s0 hs0mem
        (nightSlot_marks_today inst s0 d h hdN hlab hn hlt (by omega) h24))
      ht gi hgi hgie (hcday h h24 hshh) hgiy
  have hnext : ∀ h < eh, h < 24 → xVal inst yv f e (d + 1) h = true := by
    intro h heh24 h24
    exact xVal_intro inst yv f e (d + 1) h
      (availAt_of_slot inst e (d + 1) h s0 hs0mem
        (nightSlot_marks_nextday inst s0 d h hdN hlab hn hlt
          (by omega) h24))
      ht gi hgi hgie (hcnext h heh24 h24) hgiy
  refine ⟨htoday, hnext, fun g hg => ⟨?_, ?_⟩⟩
  · intro h h24 hshh
    by_contra hgx
    rw [Bool.not_eq_false] at hgx
    exact hg (xVal_facility_unique inst yv hwf hsat e d h g f hgx
      (htoday h h24 hshh))
  · intro h heh24 h24
    by_contra hgx
    rw [Bool.not_eq_false] at hgx
    exact hg (xVal_facility_unique inst yv hwf hsat e (d + 1) h g f hgx
      (hnext h heh24 h24))

/-- Witness for the amended C2 theorem: in the single-overnight-slot
instance `exNight`, with the slot given to facility 0, the theorem
yields that hour 0 of the next day is assigned to facility 0. -/
theorem overnight_slot_continuity_witness :
    xVal exNight yvNight 0 0 1 0 = true :=
  ((overnight_slot_continuity exNight yvNight 0 0 22 6 0 (by decide)
      (by decide) (by decide) (by decide) (by decide)).2.1) 0 (by decide)
    (by decide)



theorem entryAt_eq_some (inst : Inst) (yv : Nat → Nat → Bool) (f d h : Nat)
    (en : ShortEntry) :
    entryAt inst yv f d h = some en ↔
      staffCount inst yv f d h < requiredStaff inst f d h ∧
      en = ⟨f, d, h, requiredStaff inst f d h - staffCount inst yv f d h,
        requiredStaff inst f d h, staffCount inst yv f d h⟩ := by
  unfold entryAt
  dsimp only
  split_ifs with hlt <;> simp [hlt, eq_comm]

theorem shortage_mem_iff (inst : Inst) (yv : Nat → Nat → Bool)
    (en : ShortEntry) :
    en ∈ shortage_shifts_details inst yv ↔
      ∃ f < numFac inst, ∃ d < inst.numDays, ∃ h < 24,
        entryAt inst yv f d h = some en := by
  unfold shortage_shifts_details
  simp only [List.mem_flatMap, List.mem_filterMap, List.mem_range]

/-- C5: in every returned solution, an entry appears in
`shortage_shifts_details` for (f, d, h) iff `required - assigned > 0`,
and the entry's shortage count is `required - assigned` and its
required/assigned fields are recomputed from the inputs exactly as the
staffing formula prescribes. -/
theorem shortage_details_correct (inst : Inst) (yv : Nat → Nat → Bool)
    (f d h : Nat) (hf : f < numFac inst) (hd : d < inst.numDays)
    (hh : h < 24) :
    ((∃ en ∈ shortage_shifts_details inst yv,
        en.facIdx = f ∧ en.day = d ∧ en.hour = h) ↔
      staffCount inst yv f d h < requiredStaff inst f d h) ∧
    (∀ en ∈ shortage_shifts_details inst yv,
      en.facIdx = f → en.day = d → en.hour = h →
        en.shortage = requiredStaff inst f d h - staffCount inst yv f d h ∧
        en.required = requiredStaff inst f d h ∧
        en.assigned = staffCount inst yv f d h) := by
  have hextract : ∀ en ∈ shortage_shifts_details inst yv,
      en.facIdx = f → en.day = d → en.hour = h →
        staffCount inst yv f d h < requiredStaff inst f d h ∧
        en.shortage = requiredStaff inst f d h - staffCount inst yv f d h ∧
        en.required = requiredStaff inst f d h ∧
        en.assigned = staffCount inst yv f d h := by
    intro en hmem hef hed heh
    rw [shortage_mem_iff] at hmem
    obtain ⟨f', _, d', _, h', _, hen⟩ := hmem
    rw [entryAt_eq_some] at hen
    obtain ⟨hlt, hen⟩ := hen
    subst hen
    simp only at hef hed heh
    subst hef; subst hed; subst heh
    exact ⟨hlt, rfl, rfl, rfl⟩
  constructor
  · constructor
    · rintro ⟨en, hmem, hef, hed, heh⟩
      exact (hextract en hmem hef hed heh).1
    · intro hlt
      refine ⟨⟨f, d, h, requiredStaff inst f d h - staffCount inst yv f d h,
        requiredStaff inst f d h, staffCount inst yv f d h⟩, ?_, rfl, rfl, rfl⟩
      rw [shortage_mem_iff]
      exact ⟨f, hf, d, hd, h, hh,
        (entryAt_eq_some inst yv f d h _).mpr ⟨hlt, rfl⟩⟩
  · intro en hmem hef hed heh
    exact (hextract en hmem hef hed heh).2

/-- Witness for C5: with nobody assigned in `exTwoBlocks`, the cell
(0, 0, 0) has `required = 1 > 0 = assigned`, so an entry appears. -/
theorem shortage_details_correct_witness :
    ∃ en ∈ shortage_shifts_details exTwoBlocks yvNone,
      en.facIdx = 0 ∧ en.day = 0 ∧ en.hour = 0 :=
  (shortage_details_correct exTwoBlocks yvNone 0 0 0 (by decide) (by decide)
    (by decide)).1.mpr (by decide)

/-- Counterexample to C2 as stated: in `exOverlap` the overnight slot
Mon 22:00-06:00 is recorded for (employee 0, day 0), and the exhibited
assignment satisfies every live hard constraint of the model and the
soft-variable side conditions, assigns the slot's first hour (day 0,
hour 22) to facility 0, yet leaves the span hour (day 1, hour 0)
unassigned: the overlapping plain slot Mon 22:00-24:00 can cover the
first hours alone, because the commented-out overnight-continuity
constraint (source lines 534-572) is not part of the live model. -/
theorem overnight_continuity_cex :
    SatCore exOverlap yvOverlap ∧ softOk exOverlap yvOverlap ∧
    nightDetail exOverlap 0 0 = some (.overnight 22 6) ∧
    xVal exOverlap yvOverlap 0 0 0 22 = true ∧
    xVal exOverlap yvOverlap 0 0 1 0 = false :=
  ⟨by decide, softOk_neutral _ _ rfl rfl rfl (by decide) (by decide),
   by decide, by decide, by decide⟩

/-- C4: in every feasible solution, at most one facility is assigned
to an employee at any (day, hour): two assigned facilities are equal.
This is forced by the reified `works_at` variables of the live model
(source lines 491-497). -/
theorem single_facility_per_hour (inst : Inst) (yv : Nat → Nat → Bool)
    (hwf : prefsValid inst) (hsat : SatCore inst yv) (e d h f g : Nat)
    (hf : xVal inst yv f e d h = true) (hg : xVal inst yv g e d h = true) :
    f = g :=
  xVal_facility_unique inst yv hwf hsat e d h f g hf hg

/-- Witness for C4 at the concrete instance `exNight`, hour 22 of
day 0. -/
theorem single_facility_per_hour_witness : (0 : Nat) = 0 :=
  single_facility_per_hour exNight yvNight (by decide) (by decide)
    0 0 22 0 0 (by decide) (by decide)

/-- C3 evaluation at the failing input: in `exTwoBlocks` (slots Mon
08:00-12:00 and Mon 19:00-21:00, both given to facility 0) the
exhibited assignment satisfies every live hard constraint and the
soft-variable side conditions, yet the shift ending after hour 11
(block end 12:00) is followed by work at hour 19 = 11 + 8 — a gap of
only 7 hours from block end to next start.  The code's rest loop
forbids only offsets 1..7 after the last worked hour
(`range(1, MIN_REST_HOURS)`, source line 518), not offset 8, so the
claimed 8-hour minimum gap is not enforced. -/
theorem rest_gap_of_seven_accepted :
    SatCore exTwoBlocks yvTwoBlocks ∧ softOk exTwoBlocks yvTwoBlocks ∧
    endShift exTwoBlocks yvTwoBlocks 0 11 = true ∧
    worksAt exTwoBlocks yvTwoBlocks 0 (11 + 8) = true :=
  ⟨by decide, softOk_neutral _ _ rfl rfl rfl (by decide) (by decide),
   by decide, by decide⟩

/-- C1 evaluation at the failing input: when the first solve of a
well-formed request is INFEASIBLE at `retry_attempt = 0`, the retry
call of source line 1077 drops `full_result_ref` and `time_limit_sec`,
so `schedule_input_data` receives the cleaning-tasks table and the
lookup of `'settings'` raises `KeyError`, which escapes
`solve_schedule`; the reduced multipliers are never applied (the
retry's `penalty_multipliers` parameter takes its default `None`). -/
theorem solve_schedule_retry_raises :
    solve_schedule (fun _ => .infeasible) 4 .resRef (.schedInput true)
      .cleanInput (.intVal 60) 0 none = .error .keyError := rfl

/-- C7 evaluation at the failing input: the solver budget installed at
source line 931 is `settings.get('time_limit_sec', 60)` whatever
`time_limit_sec` value the boundary resolved; with
`time_limit_sec=5` in the query and no `time_limit_sec` key in the
settings, the boundary resolves 5 but the solver budget is 60. -/
theorem solver_budget_ignores_resolved_limit :
    (∀ a b : Int, cp_max_time_in_seconds exTwoBlocks a =
      cp_max_time_in_seconds exTwoBlocks b) ∧
    resolveTimeLimit (.intStr 5) = 5 ∧
    cp_max_time_in_seconds exTwoBlocks (resolveTimeLimit (.intStr 5)) = 60 :=
  ⟨fun _ _ => rfl, by decide, by decide⟩

/-- Counterexample to C6 as stated: a request whose `schedule_input`
lacks the `settings` key receives HTTP 200 with a `NO_DATA_ERROR`
schedule result (the engine is not invoked), not the claimed 400
(source lines 1130-1137 and 1176-1177). -/
theorem http_missing_settings_cex :
    shift_optimazation (fun _ => .ok .optimalS)
      ⟨some ⟨some ⟨false, true, true⟩, true⟩, .missing⟩ =
      .ok ⟨200, false, some .noDataError⟩ := rfl

/-- C6 (amended): the HTTP boundary returns 400 without invoking the
engine for a malformed/empty body and for a missing
`schedule_input` or `cleaning_tasks_input`; for a present
`schedule_input` missing `settings`/`facilities`/`employees` it
returns 200 with a `NO_DATA_ERROR` schedule result, engine not
invoked; and whenever the engine completes it returns 200 whatever the
solver status, INFEASIBLE included. -/
theorem http_boundary_status (engine : Int → Except PyError EngineStatus)
    (req : HttpReq) :
    (req.bodyJson = none →
      shift_optimazation engine req = .ok ⟨400, false, none⟩) ∧
    (∀ b, req.bodyJson = some b → b.scheduleInput = none →
      shift_optimazation engine req = .ok ⟨400, false, none⟩) ∧
    (∀ b, req.bodyJson = some b → b.cleaningTasksPresent = false →
      shift_optimazation engine req = .ok ⟨400, false, none⟩) ∧
    (∀ b si, req.bodyJson = some b → b.scheduleInput = some si →
      b.cleaningTasksPresent = true →
      (si.hasSettings && si.hasFacilities && si.hasEmployees) = false →
      shift_optimazation engine req = .ok ⟨200, false, some .noDataError⟩) ∧
    (∀ b si st, req.bodyJson = some b → b.scheduleInput = some si →
      b.cleaningTasksPresent = true →
      (si.hasSettings && si.hasFacilities && si.hasEmployees) = true →
      engine (resolveTimeLimit req.timeLimitParam) = .ok st →
      shift_optimazation engine req = .ok ⟨200, true, some st⟩) := by
  refine ⟨?_, ?_, ?_, ?_, ?_⟩
  · intro hb; simp [shift_optimazation, hb]
  · intro b hb hsi; simp [shift_optimazation, hb, hsi]
  · intro b hb hcl
    cases hsi : b.scheduleInput <;> simp [shift_optimazation, hb, hcl, hsi]
  · intro b si hb hsi hcl hflags
    simp [shift_optimazation, hb, hsi, hcl, hflags]
  · intro b si st hb hsi hcl hflags heng
    simp [shift_optimazation, hb, hsi, hcl, hflags, heng]

/-- Witness for the amended C6 theorem: a request with empty body gets
400, and a complete request whose engine reports INFEASIBLE gets
200. -/
theorem http_boundary_status_witness :
    shift_optimazation (fun _ => .ok .infeasibleS) ⟨none, .missing⟩ =
      .ok ⟨400, false, none⟩ ∧
    shift_optimazation (fun _ => .ok .infeasibleS)
      ⟨some ⟨some ⟨true, true, true⟩, true⟩, .missing⟩ =
      .ok ⟨200, true, some .infeasibleS⟩ :=
  ⟨(http_boundary_status _ _).1 rfl,
   (http_boundary_status _ _).2.2.2.2 _ _ _ rfl rfl rfl rfl rfl⟩

/-- Counterexample to C8 as stated: the slot Mon 20:00-23:00 with the
`is_night_shift` flag does not wrap midnight (its end hour is not less
than its start hour), yet the expander records a night-shift-details
entry for (employee 0, day 0) (source lines 155-160). -/
theorem night_details_cex :
    (nightDetail exEveningFlag 0 0).isSome = true ∧
    startsOvernightSlot exEveningFlag 0 0 = false := by decide

/-- C8 (amended): a night-shift-details entry exists for (e, d) iff
some slot of `e` matches day `d`'s weekday label, carries the
`is_night_shift` flag, and — when it wraps midnight — day `d + 1` is
still inside the horizon; and when the entry is an overnight entry
`(sh, eh)`, some matching flagged slot wraps midnight with start hour
`sh` (on the start day) and end hour `eh` (on the next day), with
`d + 1` inside the horizon. -/
theorem night_details_spec (inst : Inst) (e d sh eh : Nat) :
    ((nightDetail inst e d).isSome = true ↔
      ∃ s ∈ empSlots inst e, dayLabel inst d = s.dayOfWeek ∧
        s.isNight = true ∧
        (s.endTime < s.startTime → d + 1 < inst.numDays)) ∧
    (nightDetail inst e d = some (.overnight sh eh) →
      ∃ s ∈ empSlots inst e, dayLabel inst d = s.dayOfWeek ∧
        s.isNight = true ∧ eh < sh ∧ d + 1 < inst.numDays ∧
        s.startTime = sh ∧ s.endTime = eh) := by
  constructor
  · rw [nightDetail_isSome_iff]
    constructor
    · rintro ⟨s, hs, hw⟩
      exact ⟨s, hs, (writeDetail_isSome_iff inst d s).mp hw⟩
    · rintro ⟨s, hs, hprops⟩
      exact ⟨s, hs, (writeDetail_isSome_iff inst d s).mpr hprops⟩
  · intro hdet
    obtain ⟨s, hs, hw⟩ := nightDetail_eq_some inst e d _ hdet
    obtain ⟨h1, h2, h3, h4, h5, h6⟩ := writeDetail_overnight inst d s sh eh hw
    exact ⟨s, hs, h1, h2, by omega, h4, h5, h6⟩

/-- Witness for the amended C8 theorem at the overnight-slot instance
`exNight`. -/
theorem night_details_spec_witness :
    (nightDetail exNight 0 0).isSome = true ∧
    (∃ s ∈ empSlots exNight 0, s.startTime = 22 ∧ s.endTime = 6) :=
  ⟨(night_details_spec exNight 0 0 22 6).1.mpr
      ⟨⟨0, 22, 6, true⟩, by decide, by decide, by decide, by decide⟩,
   by
    obtain ⟨s, hs, _, _, _, _, h5, h6⟩ :=
      (night_details_spec exNight 0 0 22 6).2 (by decide)
    exact ⟨s, hs, h5, h6⟩⟩

/-- C9: the demand resolver returns the date-specific task count when
present, else the day-of-week default when present, else 0.  The
embedded function is pure by construction, mirroring the source body
(a chain of `dict.get` reads with no writes, lines 169-179). -/
theorem cleaning_tasks_resolution (inst : Inst) (fid d : Nat) :
    (∀ v, (daySpecificTasks inst fid d).lookup d = some v →
      get_cleaning_tasks_for_day_facility inst fid d = v) ∧
    ((daySpecificTasks inst fid d).lookup d = none →
      ∀ v, (defaultDowTasks inst fid).lookup (dayLabel inst d) = some v →
        get_cleaning_tasks_for_day_facility inst fid d = v) ∧
    ((daySpecificTasks inst fid d).lookup d = none →
      (defaultDowTasks inst fid).lookup (dayLabel inst d) = none →
      get_cleaning_tasks_for_day_facility inst fid d = 0) := by
  unfold get_cleaning_tasks_for_day_facility
  refine ⟨?_, ?_, ?_⟩
  · intro v hv; rw [hv]
  · intro h1 v hv; rw [h1, hv]
  · intro h1 h2; rw [h1, h2]

/-- Witness for C9 on three concrete tables: date-specific hit,
default fallback, and the all-miss case. -/
theorem cleaning_tasks_resolution_witness :
    get_cleaning_tasks_for_day_facility exCleanDate 7 0 = 5 ∧
    get_cleaning_tasks_for_day_facility exCleanDefault 7 0 = 3 ∧
    get_cleaning_tasks_for_day_facility exCleanEmpty 7 0 = 0 :=
  ⟨(cleaning_tasks_resolution exCleanDate 7 0).1 5 (by decide),
   (cleaning_tasks_resolution exCleanDefault 7 0).2.1 (by decide) 3
      (by decide),
   (cleaning_tasks_resolution exCleanEmpty 7 0).2.2 (by decide) (by decide)⟩

/-- C10: a slot whose end hour is below its start hour but whose
`is_night_shift` flag is absent or false marks no hour at all (the
`range(start, end)` of source line 152 is empty) and writes no
night-shift details, so the slot is silently ignored. -/
theorem wrapping_unflagged_slot_ignored (inst : Inst) (s : Slot) (d h : Nat)
    (hlt : s.endTime < s.startTime) (hflag : s.isNight = false) :
    slotMarksHour inst s d h = false ∧ writeDetail inst d s = none := by
  constructor
  · unfold slotMarksHour
    rcases Nat.lt_or_ge h s.endTime with hlt2 | hge
    · have hns : ¬ (s.startTime ≤ h) := by omega
      simp [hflag, hns]
    · have hns : ¬ (h < s.endTime) := by omega
      simp [hflag, hns]
  · unfold writeDetail
    simp [hflag]

/-- Witness for C10 on the concrete slot 20:00-05:00 without the
night flag. -/
theorem wrapping_unflagged_slot_ignored_witness :
    slotMarksHour baseInst ⟨0, 20, 5, false⟩ 0 21 = false ∧
    writeDetail baseInst 0 ⟨0, 20, 5, false⟩ = none :=
  wrapping_unflagged_slot_ignored baseInst ⟨0, 20, 5, false⟩ 0 21
    (by decide) (by decide)

end ShiftOpt
